import Mathlib

/-!
Verification of the grinta-rs incremental search-and-ranking core.

This development shallowly embeds the data model and the operations of the
repository (src/core.rs, src/history.rs, src/state.rs, src/input.rs,
src/cli.rs) as executable Lean definitions and proves the specified
properties about them.

Modelling conventions:
- Rust String values are Lean String values; Rust String::cmp is modelled by
  the codepoint-lexicographic compare on Lean String, which agrees with the
  byte-lexicographic order of UTF-8.
- chrono timestamps are modelled as opaque Int values; the current wall
  clock is passed explicitly to the operations that read it.
- the SkimMatcherV2 fuzzy matcher is an external crate; every definition
  that calls matcher.fuzzy_match(text, query).unwrap_or(0) takes a function
  argument fuzzy : String -> String -> Int standing for that call.
- serde_json string-level parsing and printing are external; the document
  layer is modelled by an explicit Json tree, and the string parser is a
  function argument of the load operation.
- file and channel I/O is made explicit: functions receive the file content
  (or its absence) and return the values the Rust code would write.
-/

/-- Handler enum from src/core.rs. -/
inductive Handler where
  | App
  | Note
  | Url
  | Automation
  | Folder
  | File
deriving DecidableEq, Repr

/-- CommandType enum from src/core.rs (the ranking kind of an item). -/
inductive CommandType where
  | App
  | Bookmark
  | Note
  | WebSearch
  | WebSuggestion
  | Unknown
deriving DecidableEq, Repr

/-- CommandItem struct from src/core.rs.  The metadata HashMap is modelled
as an association list; ran_at is an opaque timestamp. -/
structure CommandItem where
  label : String
  handler : Handler
  value : String
  icon : String
  ran_at : Option Int
  base64_icon : Option String
  metadata : List (String × String)
  kind : CommandType
deriving DecidableEq, Repr

/-- CommandItem::mark_executed from src/core.rs: stamps ran_at with the
current time, which is passed explicitly here. -/
def mark_executed (now : Int) (item : CommandItem) : CommandItem :=
  { item with ran_at := some now }

/-- The identity key used by the history dedup in src/history.rs:
(label, handler, value). -/
def identity_key (item : CommandItem) : String × Handler × String :=
  (item.label, item.handler, item.value)

/-- add_to_history from src/history.rs (its pure part): stamp the item,
retain every entry whose label, handler or value differs from the new
item, then push the stamped item at the end.  The subsequent save_history
call writes this list out and is modelled separately. -/
def add_to_history (now : Int) (history : List CommandItem)
    (item : CommandItem) : List CommandItem :=
  let stamped := mark_executed now item
  (history.filter (fun h =>
      h.label != stamped.label || h.handler != stamped.handler
        || h.value != stamped.value))
    ++ [stamped]

/-- Selection update at the end of AppState::filter_items (src/state.rs
lines 132-138): clear the selection when the view is empty, select index 0
when nothing was selected, and otherwise keep the stored index unchanged. -/
def update_selection (viewLen : Nat) (sel : Option Nat) : Option Nat :=
  if viewLen = 0 then none
  else
    match sel with
    | none => some 0
    | some i => some i

/-- AppState::get_selected_item from src/state.rs: look the stored index up
in the filtered view, returning none when it is absent or out of range. -/
def get_selected_item (view : List CommandItem) (sel : Option Nat) :
    Option CommandItem :=
  sel.bind (fun i => view.get? i)

/-- The KeyCode::Down branch of handle_key_event (src/input.rs lines
102-110): wrap the selection forward modulo the view length; leave
everything unchanged when the view is empty. -/
def key_down (len : Nat) (sel : Option Nat) : Option Nat :=
  if len = 0 then sel
  else
    some (match sel with
      | some i => (i + 1) % len
      | none => 0)

/-- The KeyCode::Up branch of handle_key_event (src/input.rs lines
111-125): wrap the selection backward; leave everything unchanged when the
view is empty. -/
def key_up (len : Nat) (sel : Option Nat) : Option Nat :=
  if len = 0 then sel
  else
    some (match sel with
      | some i => if i = 0 then len - 1 else i - 1
      | none => 0)

/-- Rust str::trim, modelled on the character list: drop whitespace from
both ends. -/
def str_trim (s : String) : String :=
  String.mk
    (((s.toList.dropWhile Char.isWhitespace).reverse.dropWhile
        Char.isWhitespace).reverse)

/-- Rust str::to_lowercase, modelled as the character-wise lowercase map
(the two agree on ASCII text). -/
def str_to_lower (s : String) : String :=
  String.mk (s.toList.map Char.toLower)

/-- A stable insertion placing x before the first element that is not
strictly smaller.  Together with sort_by below this models the stable
Vec::sort_by of Rust: for a total comparator a stable sort is unique, so
any stable implementation is a faithful model. -/
def stable_insert {α : Type} (le : α → α → Bool) (x : α) :
    List α → List α
  | [] => [x]
  | y :: ys => if le x y then x :: y :: ys else y :: stable_insert le x ys

/-- Stable sort by a boolean total preorder, modelling Vec::sort_by. -/
def sort_by {α : Type} (le : α → α → Bool) : List α → List α
  | [] => []
  | x :: xs => stable_insert le x (sort_by le xs)

/-- Helper: does the character list start with the given pattern list. -/
def list_starts_with : List Char → List Char → Bool
  | [], _ => true
  | _ :: _, [] => false
  | p :: ps, h :: hs => p == h && list_starts_with ps hs

/-- Helper: does the pattern list occur contiguously inside the haystack
list. -/
def list_contains_sub (pat : List Char) : List Char → Bool
  | [] => list_starts_with pat []
  | h :: hs => list_starts_with pat (h :: hs) || list_contains_sub pat hs

/-- Rust str::contains for string patterns: contiguous substring test. -/
def str_contains (hay pat : String) : Bool :=
  list_contains_sub pat.toList hay.toList

/-- The filter predicate applied to every buffer in AppState::filter_items
(src/state.rs lines 48-53, 60-65, 71-76): case-insensitive substring on
label or value, or a positive fuzzy score on label or value.  The fuzzy
argument models matcher.fuzzy_match(text, query).unwrap_or(0). -/
def matches_query (fuzzy : String → String → Int) (query : String)
    (item : CommandItem) : Bool :=
  str_contains (str_to_lower item.label) (str_to_lower query)
    || str_contains (str_to_lower item.value) (str_to_lower query)
    || decide (0 < fuzzy item.label query)
    || decide (0 < fuzzy item.value query)

/-- The best fuzzy score of an item: max of the label score and the value
score, as computed inside both sort comparators. -/
def best_fuzzy (fuzzy : String → String → Int) (query : String)
    (item : CommandItem) : Int :=
  max (fuzzy item.label query) (fuzzy item.value query)

/-- The tie-break priority table of the interactive session sort
(src/state.rs lines 104-120): local kinds get 1, web kinds get 2, and a
smaller value sorts earlier. -/
def session_priority : CommandType → Nat
  | CommandType.App => 1
  | CommandType.Note => 1
  | CommandType.Bookmark => 1
  | CommandType.Unknown => 1
  | CommandType.WebSearch => 2
  | CommandType.WebSuggestion => 2

/-- The comparator passed to sort_by in AppState::filter_items
(src/state.rs lines 89-129): descending best fuzzy score, then ascending
session priority, then ascending label (Rust String::cmp, case
sensitive). -/
def session_compare (fuzzy : String → String → Int) (query : String)
    (a b : CommandItem) : Ordering :=
  match compare (best_fuzzy fuzzy query b) (best_fuzzy fuzzy query a) with
  | Ordering.eq =>
    match compare (session_priority a.kind) (session_priority b.kind) with
    | Ordering.eq => compare a.label b.label
    | o => o
  | o => o

/-- Boolean form of the session comparator, for the stable merge sort that
models Vec::sort_by. -/
def session_le (fuzzy : String → String → Int) (query : String)
    (a b : CommandItem) : Bool :=
  session_compare fuzzy query a b != Ordering.gt

/-- AppState::filter_items (src/state.rs lines 37-139), as a pure function
of the joined query text, the four buffers and the previous selection.  It
returns the new filtered view together with the new selection. -/
def filter_items (fuzzy : String → String → Int) (rawQuery : String)
    (items fs_items web_items history : List CommandItem)
    (sel : Option Nat) : List CommandItem × Option Nat :=
  let query := str_trim rawQuery
  let view :=
    if query.isEmpty then history.reverse
    else
      let static_filtered := items.filter (matches_query fuzzy query)
      let fs_filtered := fs_items.filter (matches_query fuzzy query)
      let web_filtered := web_items.filter (matches_query fuzzy query)
      let new_filtered := static_filtered ++ fs_filtered ++ web_filtered
      sort_by (session_le fuzzy query) new_filtered
  (view, update_selection view.length sel)

/-- Position of a kind in the order App, Note, Bookmark, Unknown,
WebSearch, WebSuggestion used by the spec for the type-priority table. -/
def kind_rank : CommandType → Nat
  | CommandType.App => 0
  | CommandType.Note => 1
  | CommandType.Bookmark => 2
  | CommandType.Unknown => 3
  | CommandType.WebSearch => 4
  | CommandType.WebSuggestion => 5

/-- The type-priority bonus table of the CLI streaming sort
(src/cli.rs lines 250-266). -/
def cli_type_bonus : CommandType → Int
  | CommandType.App => 200
  | CommandType.Note => 150
  | CommandType.Bookmark => 100
  | CommandType.Unknown => 50
  | CommandType.WebSearch => 25
  | CommandType.WebSuggestion => 0

/-- The scoring filter of run_search_command_inner (src/cli.rs lines
228-242): keep an item only when its best fuzzy score is positive, and
pair it with that score. -/
def cli_score_filter (fuzzy : String → String → Int) (query : String)
    (results : List CommandItem) : List (CommandItem × Int) :=
  results.filterMap (fun item =>
    let s := best_fuzzy fuzzy query item
    if 0 < s then some (item, s) else none)

/-- The comparator of the CLI streaming sort (src/cli.rs lines 245-277):
descending fuzzy score plus type bonus, then ascending lowercased label. -/
def cli_compare (a b : CommandItem × Int) : Ordering :=
  let a_combined := a.2 + cli_type_bonus a.1.kind
  let b_combined := b.2 + cli_type_bonus b.1.kind
  match compare b_combined a_combined with
  | Ordering.eq => compare (str_to_lower a.1.label) (str_to_lower b.1.label)
  | o => o

/-- Boolean form of the CLI comparator for the stable merge sort. -/
def cli_le (a b : CommandItem × Int) : Bool :=
  cli_compare a b != Ordering.gt

/-- The ranking part of run_search_command_inner (src/cli.rs lines
226-277): score and filter the collected results, then sort them by the
CLI comparator. -/
def run_search_rank (fuzzy : String → String → Int) (query : String)
    (results : List CommandItem) : List (CommandItem × Int) :=
  sort_by cli_le (cli_score_filter fuzzy query results)

/-- State of one cancellable source category (src/input.rs): the live
generation counter together with the generations captured by the tasks
dispatched so far. -/
structure DispatchState where
  generation : Nat
  pending : List Nat
deriving DecidableEq, Repr

/-- The synchronous head of trigger_debounced_fs_search and
trigger_debounced_web_search (src/input.rs lines 148-151 and 181-184): one
query edit increments the live counter with fetch_add and spawns a task
that captures the new value. -/
def trigger_debounced_search (s : DispatchState) : DispatchState :=
  { generation := s.generation + 1, pending := s.pending ++ [s.generation + 1] }

/-- n successive query edits to the same source category. -/
def rapid_edits (s : DispatchState) : Nat → DispatchState
  | 0 => s
  | n + 1 => trigger_debounced_search (rapid_edits s n)

/-- Outcome of the underlying source call of one dispatched task. -/
inductive SearchOutcome where
  | ok (items : List CommandItem)
  | err (msg : String)
deriving DecidableEq, Repr

/-- What a dispatched task delivered: the batch it published on the result
channel, if any, and the messages it sent on the error channel. -/
structure Delivery where
  published : Option (List CommandItem)
  errors : List String
deriving DecidableEq, Repr

/-- The spawned body of trigger_debounced_fs_search (src/input.rs lines
152-177): after the debounce sleep, re-check the live counter against the
captured generation and abort silently on mismatch; run the search,
routing a failure to the error channel with an empty batch; re-check the
live counter again and publish only when it still matches.  live1 and
live2 are the values of the atomic counter at the two check points. -/
def task_delivery (captured live1 live2 : Nat) (outcome : SearchOutcome) :
    Delivery :=
  if live1 != captured then { published := none, errors := [] }
  else
    let step :=
      match outcome with
      | SearchOutcome.ok items => (items, ([] : List String))
      | SearchOutcome.err msg => (([] : List CommandItem), [msg])
    if live2 == captured then { published := some step.1, errors := step.2 }
    else { published := none, errors := step.2 }

/-- JSON document tree, modelling the serde_json value layer used by the
history persistence in src/history.rs. -/
inductive Json where
  | null
  | bool (b : Bool)
  | num (n : Int)
  | str (s : String)
  | arr (elems : List Json)
  | obj (fields : List (String × Json))

/-- Serialization of the Handler enum: serde externally tagged unit
variants become plain strings. -/
def handler_to_json (h : Handler) : Json :=
  Json.str (match h with
    | Handler.App => "App"
    | Handler.Note => "Note"
    | Handler.Url => "Url"
    | Handler.Automation => "Automation"
    | Handler.Folder => "Folder"
    | Handler.File => "File")

/-- Deserialization of the Handler enum. -/
def json_to_handler : Json → Option Handler
  | Json.str "App" => some Handler.App
  | Json.str "Note" => some Handler.Note
  | Json.str "Url" => some Handler.Url
  | Json.str "Automation" => some Handler.Automation
  | Json.str "Folder" => some Handler.Folder
  | Json.str "File" => some Handler.File
  | _ => none

/-- Serialization of the CommandType enum. -/
def kind_to_json (k : CommandType) : Json :=
  Json.str (match k with
    | CommandType.App => "App"
    | CommandType.Bookmark => "Bookmark"
    | CommandType.Note => "Note"
    | CommandType.WebSearch => "WebSearch"
    | CommandType.WebSuggestion => "WebSuggestion"
    | CommandType.Unknown => "Unknown")

/-- Deserialization of the CommandType enum. -/
def json_to_kind : Json → Option CommandType
  | Json.str "App" => some CommandType.App
  | Json.str "Bookmark" => some CommandType.Bookmark
  | Json.str "Note" => some CommandType.Note
  | Json.str "WebSearch" => some CommandType.WebSearch
  | Json.str "WebSuggestion" => some CommandType.WebSuggestion
  | Json.str "Unknown" => some CommandType.Unknown
  | _ => none

/-- Serialization of the metadata map as a JSON object. -/
def meta_to_json (m : List (String × String)) : Json :=
  Json.obj (m.map (fun kv => (kv.1, Json.str kv.2)))

/-- Deserialization of the fields of a metadata object: every field value
must be a string. -/
def meta_fields_to_list : List (String × Json) → Option (List (String × String))
  | [] => some []
  | (k, Json.str v) :: rest =>
    (meta_fields_to_list rest).map (fun r => (k, v) :: r)
  | _ => none

/-- Deserialization of the metadata map: every field value must be a
string. -/
def json_to_meta : Json → Option (List (String × String))
  | Json.obj fields => meta_fields_to_list fields
  | _ => none

/-- First field of a JSON object with the given name, modelling the field
lookup serde performs during struct deserialization. -/
def get_field : List (String × Json) → String → Option Json
  | [], _ => none
  | (k, v) :: rest, key => if k == key then some v else get_field rest key

/-- Serialization of a CommandItem following the serde attributes on the
struct in src/core.rs: fields in declaration order, ran_at and base64_icon
skipped when none. -/
def item_to_json (it : CommandItem) : Json :=
  Json.obj
    ([("label", Json.str it.label),
      ("handler", handler_to_json it.handler),
      ("value", Json.str it.value),
      ("icon", Json.str it.icon)]
      ++ (match it.ran_at with
          | some t => [("ran_at", Json.num t)]
          | none => [])
      ++ (match it.base64_icon with
          | some s => [("base64_icon", Json.str s)]
          | none => [])
      ++ [("metadata", meta_to_json it.metadata),
          ("kind", kind_to_json it.kind)])

/-- Deserialization of a CommandItem: required string fields, optional
ran_at and base64_icon (absent field means none), and defaulted metadata
and kind as declared by the serde default attributes. -/
def json_to_item : Json → Option CommandItem
  | Json.obj fields =>
    ((get_field fields "label").bind (fun jl =>
      match jl with
      | Json.str label =>
        ((get_field fields "handler").bind json_to_handler).bind (fun handler =>
          (get_field fields "value").bind (fun jv =>
            match jv with
            | Json.str value =>
              (get_field fields "icon").bind (fun ji =>
                match ji with
                | Json.str icon =>
                  (match get_field fields "ran_at" with
                    | none => some none
                    | some (Json.num t) => some (some t)
                    | some _ => none).bind (fun ran_at =>
                    (match get_field fields "base64_icon" with
                      | none => some none
                      | some (Json.str s) => some (some s)
                      | some _ => none).bind (fun b64 =>
                      (match get_field fields "metadata" with
                        | none => some []
                        | some j => json_to_meta j).bind (fun md =>
                        (match get_field fields "kind" with
                          | none => some CommandType.Unknown
                          | some j => json_to_kind j).map (fun kind =>
                          { label := label, handler := handler,
                            value := value, icon := icon,
                            ran_at := ran_at, base64_icon := b64,
                            metadata := md, kind := kind }))))
                | _ => none)
            | _ => none))
      | _ => none))
  | _ => none

/-- save_history from src/history.rs at the document layer: the history
list is written as a JSON array of serialized items. -/
def save_history (history : List CommandItem) : Json :=
  Json.arr (history.map item_to_json)

/-- Deserialization of a list of serialized items: every element must
deserialize. -/
def decode_item_list : List Json → Option (List CommandItem)
  | [] => some []
  | j :: rest =>
    (json_to_item j).bind (fun it =>
      (decode_item_list rest).map (fun r => it :: r))

/-- Deserialization of the persisted history document. -/
def json_to_items : Json → Option (List CommandItem)
  | Json.arr elems => decode_item_list elems
  | _ => none

/-- load_history from src/history.rs: return the empty list when the file
does not exist; otherwise parse the file content, falling back to the
empty list when parsing fails (unwrap_or_else).  json_parse models the
string-level parser of the external serde_json crate. -/
def load_history (file_present : Bool) (contents : String)
    (json_parse : String → Option Json) : List CommandItem :=
  if file_present then ((json_parse contents).bind json_to_items).getD []
  else []

/-- A fuzzy-matcher stand-in that scores every pair zero, used for
concrete evaluations. -/
def zero_fuzzy : String → String → Int := fun _ _ => 0

/-- A concrete item used in concrete instantiations of the theorems. -/
def sample_app_item : CommandItem :=
  { label := "Beta", handler := Handler.App, value := "beta",
    icon := "i", ran_at := none, base64_icon := none,
    metadata := [], kind := CommandType.App }

/-- A concrete note item used in concrete instantiations. -/
def sample_note_item : CommandItem :=
  { label := "Alpha", handler := Handler.Note, value := "alpha",
    icon := "i", ran_at := none, base64_icon := none,
    metadata := [], kind := CommandType.Note }

/-- A concrete item with every optional field populated, used for the
round-trip instantiation. -/
def sample_full_item : CommandItem :=
  { label := "Cursor", handler := Handler.File, value := "/tmp/cursor",
    icon := "f", ran_at := some 1717171717, base64_icon := some "AAAA",
    metadata := [("type", "folder"), ("size", "1024")],
    kind := CommandType.Unknown }

/-- A concrete item with a lowercase label, used in the tie-break
counterexamples. -/
def sample_item_lower_a : CommandItem :=
  { label := "a", handler := Handler.App, value := "v1",
    icon := "i", ran_at := none, base64_icon := none,
    metadata := [], kind := CommandType.App }

/-- A concrete item labelled with an uppercase B. -/
def sample_item_upper_b : CommandItem :=
  { label := "B", handler := Handler.App, value := "v2",
    icon := "i", ran_at := none, base64_icon := none,
    metadata := [], kind := CommandType.App }

/-- A concrete item labelled with an uppercase A. -/
def sample_item_upper_a : CommandItem :=
  { label := "A", handler := Handler.App, value := "v3",
    icon := "i", ran_at := none, base64_icon := none,
    metadata := [], kind := CommandType.App }

/-- A second concrete item sharing the identity key of sample_full_item
but differing in the other fields. -/
def sample_full_item_dup : CommandItem :=
  { label := "Cursor", handler := Handler.File, value := "/tmp/cursor",
    icon := "g", ran_at := some 5, base64_icon := none,
    metadata := [], kind := CommandType.App }

/-- The two tie-break classes of the session priority table: web kinds are
WebSearch and WebSuggestion, local kinds are the rest. -/
def is_web_kind (k : CommandType) : Bool :=
  k == CommandType.WebSearch || k == CommandType.WebSuggestion

/-- Claim C8: on a non-empty view of length len, Down moves a valid
selection i to (i+1) mod len, so Down on the last index wraps to 0, and Up
moves index 0 to len-1 and otherwise i to i-1; on an empty view both keys
leave the selection unchanged. -/
theorem c8_selection_wrap (len i : Nat) (sel : Option Nat)
    (hlen : 0 < len) (hi : i < len) :
    key_down len (some i) = some ((i + 1) % len)
    ∧ (i = len - 1 → key_down len (some i) = some 0)
    ∧ key_up len (some 0) = some (len - 1)
    ∧ (0 < i → key_up len (some i) = some (i - 1))
    ∧ key_down 0 sel = sel ∧ key_up 0 sel = sel := by
  refine ⟨?_, ?_, ?_, ?_, ?_, ?_⟩
  · simp [key_down, Nat.pos_iff_ne_zero.mp hlen]
  · intro h
    subst h
    simp [key_down, Nat.pos_iff_ne_zero.mp hlen,
      Nat.sub_add_cancel hlen, Nat.mod_self]
  · simp [key_up, Nat.pos_iff_ne_zero.mp hlen]
  · intro h
    simp [key_up, Nat.pos_iff_ne_zero.mp hlen, Nat.pos_iff_ne_zero.mp h]
  · simp [key_down]
  · simp [key_up]

/-- Witness for c8_selection_wrap at len 3, i 2, sel some 5. -/
theorem c8_selection_wrap_witness :
    0 < 3 ∧ 2 < 3
    ∧ (key_down 3 (some 2) = some ((2 + 1) % 3)
      ∧ (2 = 3 - 1 → key_down 3 (some 2) = some 0)
      ∧ key_up 3 (some 0) = some (3 - 1)
      ∧ (0 < 2 → key_up 3 (some 2) = some (2 - 1))
      ∧ key_down 0 (some 5) = some 5 ∧ key_up 0 (some 5) = some 5) :=
  ⟨by decide, by decide, c8_selection_wrap 3 2 (some 5) (by decide) (by decide)⟩

/-- Claim C9: with an empty trimmed query, filter_items produces exactly
the history buffer reversed, every entry included, with no filtering and
no scoring. -/
theorem c9_empty_query_view (fuzzy : String → String → Int)
    (rawQuery : String) (items fs_items web_items history : List CommandItem)
    (sel : Option Nat) (h : str_trim rawQuery = "") :
    (filter_items fuzzy rawQuery items fs_items web_items history sel).1
      = history.reverse := by
  have h2 : (str_trim rawQuery).isEmpty = true := by rw [h]; rfl
  simp [filter_items, h2]

/-- Witness for c9_empty_query_view: a history of one item yields exactly
that item as the view. -/
theorem c9_empty_query_view_witness :
    str_trim "" = ""
    ∧ (filter_items zero_fuzzy "" [] [] [] [sample_app_item] none).1
        = List.reverse [sample_app_item] :=
  ⟨rfl, c9_empty_query_view zero_fuzzy "" [] [] [] [sample_app_item] none rfl⟩

/-- Claim C6: load_history returns the empty list, not an error, whenever
the history file is absent or its content fails to parse as a list of
items. -/
theorem c6_load_non_fatal (file_present : Bool) (contents : String)
    (json_parse : String → Option Json)
    (h : file_present = false
      ∨ (json_parse contents).bind json_to_items = none) :
    load_history file_present contents json_parse = [] := by
  rcases h with h | h
  · simp [load_history, h]
  · cases file_present <;> simp [load_history, h]

/-- Witness for c6_load_non_fatal: the absent-file case, and the corrupt
content case where the external parser rejects the content "not json". -/
theorem c6_load_non_fatal_witness :
    load_history false "x" (fun _ => some Json.null) = []
    ∧ load_history true "not json" (fun _ => none) = [] :=
  ⟨c6_load_non_fatal false "x" (fun _ => some Json.null) (Or.inl rfl),
   c6_load_non_fatal true "not json" (fun _ => none) (Or.inr rfl)⟩

/-- Claim C1 as stated is false: filter_items does not clamp a stale
selection.  With one static item matching the query "a" and a previous
selection of index 1 (reachable by selecting the second row of a longer
view before typing), the recomputed view has length 1 but the stored
selection stays at index 1, which is out of range. -/
theorem c1_selection_counterexample :
    ¬ (∀ i,
        (filter_items zero_fuzzy "a" [sample_note_item] [] [] []
            (some 1)).2 = some i
          → i < (filter_items zero_fuzzy "a" [sample_note_item] [] [] []
              (some 1)).1.length) := by
  intro h
  have h1 := h 1 rfl
  have h2 : (filter_items zero_fuzzy "a" [sample_note_item] [] [] []
      (some 1)).1.length = 1 := rfl
  rw [h2] at h1
  exact absurd h1 (by decide)

/-- Claim C1 amended: after every recomputation the selection is absent
exactly when the view is empty; a previously absent selection becomes
index 0; a previously stored index is kept unchanged, even when it is not
below the new view length, and get_selected_item returns no item for such
an out-of-range index (it yields an item only for an in-range index). -/
theorem c1_selection_amended (fuzzy : String → String → Int)
    (rawQuery : String) (items fs_items web_items history : List CommandItem)
    (sel : Option Nat) (view : List CommandItem) (n i : Nat)
    (x : CommandItem) :
    (filter_items fuzzy rawQuery items fs_items web_items history sel).2
      = update_selection
          (filter_items fuzzy rawQuery items fs_items web_items history
            sel).1.length sel
    ∧ update_selection 0 sel = none
    ∧ (0 < n → update_selection n none = some 0)
    ∧ (0 < n → update_selection n (some i) = some i)
    ∧ (view.length ≤ i → get_selected_item view (some i) = none)
    ∧ (get_selected_item view (some i) = some x → i < view.length) := by
  refine ⟨rfl, by simp [update_selection], ?_, ?_, ?_, ?_⟩
  · intro h
    simp [update_selection, Nat.pos_iff_ne_zero.mp h]
  · intro h
    simp [update_selection, Nat.pos_iff_ne_zero.mp h]
  · intro h
    simpa [get_selected_item, List.get?_eq_none] using h
  · intro h
    simp only [get_selected_item, Option.bind_some] at h
    rcases List.get?_eq_some.mp h with ⟨hlt, _⟩
    exact hlt

/-- Witness for c1_selection_amended with a non-empty view length 2, a
stale index 5 and a one-item view looked up at index 5. -/
theorem c1_selection_amended_witness :
    update_selection 0 (some 5) = none
    ∧ (0 < 2 ∧ update_selection 2 none = some 0)
    ∧ (0 < 2 ∧ update_selection 2 (some 5) = some 5)
    ∧ ([sample_app_item].length ≤ 5
      ∧ get_selected_item [sample_app_item] (some 5) = none) :=
  ⟨(c1_selection_amended zero_fuzzy "" [] [] [] [] (some 5) [sample_app_item]
      2 5 sample_app_item).2.1,
   ⟨by decide,
    (c1_selection_amended zero_fuzzy "" [] [] [] [] none [sample_app_item]
      2 5 sample_app_item).2.2.1 (by decide)⟩,
   ⟨by decide,
    (c1_selection_amended zero_fuzzy "" [] [] [] [] (some 5) [sample_app_item]
      2 5 sample_app_item).2.2.2.1 (by decide)⟩,
   ⟨by decide,
    (c1_selection_amended zero_fuzzy "" [] [] [] [] (some 5) [sample_app_item]
      2 5 sample_app_item).2.2.2.2.1 (by decide)⟩⟩

/-- Claim C2 as stated is false for the interactive session sort: the
session priority table does not strictly decrease along
App, Note, Bookmark, Unknown, WebSearch, WebSuggestion.  App and Note get
the same tie-break priority, and with equal fuzzy scores a Note item whose
label sorts first is placed strictly before an App item. -/
theorem c2_priority_counterexample :
    kind_rank CommandType.App < kind_rank CommandType.Note
    ∧ session_priority CommandType.App = session_priority CommandType.Note
    ∧ ¬ session_priority CommandType.App < session_priority CommandType.Note
    ∧ session_compare zero_fuzzy "q" sample_note_item sample_app_item
        = Ordering.lt := by
  refine ⟨by decide, rfl, by decide, by decide⟩

/-- Claim C2 amended: the CLI streaming bonus table is strictly decreasing
along the order App, Note, Bookmark, Unknown, WebSearch, WebSuggestion,
while the interactive session table has exactly two levels: every local
kind (App, Note, Bookmark, Unknown) is strictly preferred to every web
kind (WebSearch, WebSuggestion), and kinds inside one class tie. -/
theorem c2_priority_amended (k1 k2 : CommandType) :
    (kind_rank k1 < kind_rank k2 → cli_type_bonus k1 > cli_type_bonus k2)
    ∧ (session_priority k1 < session_priority k2
        ↔ is_web_kind k1 = false ∧ is_web_kind k2 = true) := by
  cases k1 <;> cases k2 <;> exact ⟨by decide, by decide⟩

/-- Witness for c2_priority_amended: App outranks Note in the CLI bonus
table, and in the session table App is strictly preferred to WebSearch. -/
theorem c2_priority_amended_witness :
    (kind_rank CommandType.App < kind_rank CommandType.Note
      ∧ cli_type_bonus CommandType.App > cli_type_bonus CommandType.Note)
    ∧ (is_web_kind CommandType.App = false
      ∧ is_web_kind CommandType.WebSearch = true
      ∧ session_priority CommandType.App
          < session_priority CommandType.WebSearch) :=
  ⟨⟨by decide,
    (c2_priority_amended CommandType.App CommandType.Note).1 (by decide)⟩,
   ⟨rfl, rfl,
    (c2_priority_amended CommandType.App CommandType.WebSearch).2.mpr
      ⟨rfl, rfl⟩⟩⟩

/-- Claim C3 as stated is false: the interactive session tie-break
compares labels with the case-sensitive Rust String ordering, not
case-insensitively.  Two App items with equal (zero) fuzzy scores and
labels differing only in case do not tie, and the item labelled "a" is
ordered after the item labelled "B" although "a" precedes "b"
case-insensitively. -/
theorem c3_tiebreak_counterexample :
    session_compare zero_fuzzy "q" sample_item_lower_a sample_item_upper_b
        = Ordering.gt
    ∧ compare (str_to_lower "a") (str_to_lower "B") = Ordering.lt
    ∧ session_compare zero_fuzzy "q" sample_item_lower_a sample_item_upper_a
        ≠ Ordering.eq := by
  refine ⟨by decide, by decide, by decide⟩

/-- Claim C3 amended: on equal best fuzzy scores and equal session
priorities the interactive session sort falls back to the case-sensitive
ascending label order (Rust String::cmp); the case-insensitive lowercased
label tie-break is used only by the CLI streaming sort, on equal combined
scores. -/
theorem c3_tiebreak_amended (fuzzy : String → String → Int) (query : String)
    (a b : CommandItem) (pa pb : CommandItem × Int) :
    (best_fuzzy fuzzy query a = best_fuzzy fuzzy query b →
      session_priority a.kind = session_priority b.kind →
      session_compare fuzzy query a b = compare a.label b.label)
    ∧ (pa.2 + cli_type_bonus pa.1.kind = pb.2 + cli_type_bonus pb.1.kind →
      cli_compare pa pb
        = compare (str_to_lower pa.1.label) (str_to_lower pb.1.label)) := by
  constructor
  · intro h1 h2
    unfold session_compare
    rw [h1, h2, compare_eq_iff_eq.mpr rfl, compare_eq_iff_eq.mpr rfl]
  · intro h
    simp only [cli_compare]
    rw [h, compare_eq_iff_eq.mpr rfl]

/-- Witness for c3_tiebreak_amended: two App items with zero fuzzy scores
tie-break by raw label compare in the session sort, and an App and a Note
pair with equal combined scores tie-break by lowercased label in the CLI
sort. -/
theorem c3_tiebreak_amended_witness :
    (best_fuzzy zero_fuzzy "q" sample_item_lower_a
        = best_fuzzy zero_fuzzy "q" sample_item_upper_b
      ∧ session_priority sample_item_lower_a.kind
          = session_priority sample_item_upper_b.kind
      ∧ session_compare zero_fuzzy "q" sample_item_lower_a sample_item_upper_b
          = compare sample_item_lower_a.label sample_item_upper_b.label)
    ∧ ((0 : Int) + cli_type_bonus sample_app_item.kind
        = 50 + cli_type_bonus sample_note_item.kind
      ∧ cli_compare (sample_app_item, 0) (sample_note_item, 50)
          = compare (str_to_lower sample_app_item.label)
              (str_to_lower sample_note_item.label)) :=
  ⟨⟨rfl, rfl,
    (c3_tiebreak_amended zero_fuzzy "q" sample_item_lower_a
        sample_item_upper_b (sample_app_item, 0) (sample_note_item, 50)).1
      rfl rfl⟩,
   ⟨rfl,
    (c3_tiebreak_amended zero_fuzzy "q" sample_item_lower_a
        sample_item_upper_b (sample_app_item, 0) (sample_note_item, 50)).2
      rfl⟩⟩

/-- Stamping ran_at does not change the identity key. -/
theorem identity_key_mark_executed (now : Int) (item : CommandItem) :
    identity_key (mark_executed now item) = identity_key item := rfl

/-- The retain predicate of add_to_history keeps exactly the entries whose
identity key differs from the key of the new item. -/
theorem retain_keep_iff (a b : CommandItem) (now : Int) :
    ((a.label != (mark_executed now b).label
      || a.handler != (mark_executed now b).handler
      || a.value != (mark_executed now b).value) = true)
      ↔ identity_key a ≠ identity_key b := by
  simp [mark_executed, identity_key, Prod.ext_iff]
  tauto

/-- add_to_history in key-filter form. -/
theorem add_to_history_eq (now : Int) (history : List CommandItem)
    (item : CommandItem) :
    add_to_history now history item
      = history.filter (fun h => decide (identity_key h ≠ identity_key item))
        ++ [mark_executed now item] := by
  simp only [add_to_history]
  congr 1
  apply List.filter_congr
  intro x _
  rw [Bool.eq_iff_iff, retain_keep_iff]
  simp

/-- Claim C5: add_to_history stamps the executed item, removes every entry
sharing the identity key (label, handler, value) and appends the stamped
item at the end; recording a second item with the same key leaves the
length unchanged and moves the stamped entry to the end; entries with a
different key are retained exactly as they were. -/
theorem c5_history_dedup (now1 now2 : Int) (history : List CommandItem)
    (item1 item2 other : CommandItem) :
    (add_to_history now1 history item1).getLast?
        = some (mark_executed now1 item1)
    ∧ (∀ x ∈ add_to_history now1 history item1,
        identity_key x = identity_key item1 → x = mark_executed now1 item1)
    ∧ (identity_key item1 = identity_key item2 →
        (add_to_history now2 (add_to_history now1 history item1)
            item2).length
          = (add_to_history now1 history item1).length
        ∧ (add_to_history now2 (add_to_history now1 history item1)
            item2).getLast? = some (mark_executed now2 item2))
    ∧ (identity_key other ≠ identity_key item1 →
        (other ∈ add_to_history now1 history item1 ↔ other ∈ history)) := by
  refine ⟨?_, ?_, ?_, ?_⟩
  · rw [add_to_history_eq]
    exact List.getLast?_concat _
  · intro x hx hkey
    rw [add_to_history_eq] at hx
    rcases List.mem_append.mp hx with hm | hm
    · exfalso
      have hp := (List.mem_filter.mp hm).2
      simp only [decide_eq_true_eq] at hp
      exact hp hkey
    · exact List.mem_singleton.mp hm
  · intro hk
    have hpq : (fun h => decide (identity_key h ≠ identity_key item2))
        = (fun h => decide (identity_key h ≠ identity_key item1)) := by
      funext z
      rw [hk]
    have hs1 : (fun h => decide (identity_key h ≠ identity_key item1))
        (mark_executed now1 item1) = false := by
      simp [identity_key_mark_executed]
    constructor
    · rw [add_to_history_eq, add_to_history_eq,
        List.filter_append, hpq, List.filter_filter]
      have hff : (List.filter
            (fun a => decide (identity_key a ≠ identity_key item1)
              && decide (identity_key a ≠ identity_key item1)) history)
          = List.filter
              (fun a => decide (identity_key a ≠ identity_key item1))
              history := by
        apply List.filter_congr
        intro x _
        rw [Bool.and_self]
      rw [hff]
      simp [hs1, List.length_append, identity_key_mark_executed]
    · rw [add_to_history_eq]
      exact List.getLast?_concat _
  · intro hne
    rw [add_to_history_eq]
    constructor
    · intro hm
      rcases List.mem_append.mp hm with hm | hm
      · exact (List.mem_filter.mp hm).1
      · exfalso
        have heq := List.mem_singleton.mp hm
        apply hne
        rw [heq, identity_key_mark_executed]
    · intro hm
      apply List.mem_append.mpr
      left
      apply List.mem_filter.mpr
      exact ⟨hm, by simp [hne]⟩

/-- Witness for c5_history_dedup: recording an item with a populated key
twice over a one-entry history keeps the length at two and moves the
restamped entry to the end; the unrelated entry is retained. -/
theorem c5_history_dedup_witness :
    (add_to_history 10 [sample_app_item] sample_full_item).getLast?
        = some (mark_executed 10 sample_full_item)
    ∧ (identity_key sample_full_item = identity_key sample_full_item_dup
      ∧ (add_to_history 20
            (add_to_history 10 [sample_app_item] sample_full_item)
            sample_full_item_dup).length
          = (add_to_history 10 [sample_app_item] sample_full_item).length
      ∧ (add_to_history 20
            (add_to_history 10 [sample_app_item] sample_full_item)
            sample_full_item_dup).getLast?
          = some (mark_executed 20 sample_full_item_dup))
    ∧ (identity_key sample_app_item ≠ identity_key sample_full_item
      ∧ (sample_app_item
            ∈ add_to_history 10 [sample_app_item] sample_full_item
          ↔ sample_app_item ∈ [sample_app_item])) :=
  ⟨(c5_history_dedup 10 20 [sample_app_item] sample_full_item
      sample_full_item_dup sample_app_item).1,
   ⟨by decide,
    ((c5_history_dedup 10 20 [sample_app_item] sample_full_item
        sample_full_item_dup sample_app_item).2.2.1 (by decide)).1,
    ((c5_history_dedup 10 20 [sample_app_item] sample_full_item
        sample_full_item_dup sample_app_item).2.2.1 (by decide)).2⟩,
   ⟨by decide,
    (c5_history_dedup 10 20 [sample_app_item] sample_full_item
        sample_full_item_dup sample_app_item).2.2.2 (by decide)⟩⟩

/-- After n rapid edits from a fresh counter state the live generation is
the start value plus n. -/
theorem rapid_edits_generation (c : Nat) (n : Nat) :
    (rapid_edits { generation := c, pending := [] } n).generation
      = c + n := by
  induction n with
  | zero => rfl
  | succ n ih =>
    simp only [rapid_edits, trigger_debounced_search, ih]
    omega

/-- After n rapid edits from a fresh counter state the captured
generations of the dispatched tasks are c+1, ..., c+n in dispatch order. -/
theorem rapid_edits_pending (c : Nat) (n : Nat) :
    (rapid_edits { generation := c, pending := [] } n).pending
      = (List.range n).map (fun k => c + k + 1) := by
  induction n with
  | zero => rfl
  | succ n ih =>
    simp only [rapid_edits, trigger_debounced_search, ih,
      rapid_edits_generation, List.range_succ, List.map_append,
      List.map_cons, List.map_nil]

/-- Among the tasks dispatched by n rapid edits exactly one captured the
final live generation, namely the last one dispatched. -/
theorem rapid_edits_latest_filter (c : Nat) (n : Nat) (hn : 0 < n) :
    (rapid_edits { generation := c, pending := [] } n).pending.filter
        (fun g =>
          g == (rapid_edits { generation := c, pending := [] } n).generation)
      = [c + n] := by
  obtain ⟨m, rfl⟩ : ∃ m, n = m + 1 := ⟨n - 1, by omega⟩
  rw [rapid_edits_pending, rapid_edits_generation, List.range_succ,
    List.map_append, List.filter_append]
  have h1 : (List.filter (fun g => g == c + (m + 1))
      ((List.range m).map (fun k => c + k + 1))) = [] := by
    apply List.filter_eq_nil_iff.mpr
    intro a ha
    rcases List.mem_map.mp ha with ⟨k, hk, rfl⟩
    have hkm := List.mem_range.mp hk
    simp only [beq_iff_eq]
    omega
  rw [h1]
  simp only [List.nil_append, List.map_cons, List.map_nil]
  have h2 : c + m + 1 = c + (m + 1) := by omega
  rw [h2]
  simp

/-- Claim C4: a dispatched batch is published only when its captured
generation still equals the live counter at both re-check points; a
superseded batch is dropped silently, with nothing published and no error
sent; and after n rapid edits within one source category, with the live
counter at its final value during delivery, a pending task can publish its
batch exactly when it was the last one dispatched — so at most one of the
n in-flight results is accepted, the one with the highest generation, and
every pending generation is bounded by that highest one. -/
theorem c4_generation_discipline (c n g live1 live2 : Nat)
    (items : List CommandItem) (outcome : SearchOutcome) (hn : 0 < n) :
    ((task_delivery g live1 live2 outcome).published ≠ none
      → live1 = g ∧ live2 = g)
    ∧ (live1 ≠ g ∨ live2 ≠ g →
        task_delivery g live1 live2 (SearchOutcome.ok items)
          = { published := none, errors := [] })
    ∧ (∀ gc ∈ (rapid_edits { generation := c, pending := [] } n).pending,
        ((task_delivery gc
            (rapid_edits { generation := c, pending := [] } n).generation
            (rapid_edits { generation := c, pending := [] } n).generation
            (SearchOutcome.ok items)).published = some items
          ↔ gc = c + n))
    ∧ ((rapid_edits { generation := c, pending := [] } n).pending.filter
        (fun gc =>
          gc == (rapid_edits { generation := c, pending := [] } n).generation)
        = [c + n])
    ∧ (∀ gc ∈ (rapid_edits { generation := c, pending := [] } n).pending,
        gc ≤ c + n) := by
  refine ⟨?_, ?_, ?_, rapid_edits_latest_filter c n hn, ?_⟩
  · intro h
    by_cases h1 : live1 = g
    · by_cases h2 : live2 = g
      · exact ⟨h1, h2⟩
      · exfalso
        apply h
        cases outcome <;> simp [task_delivery, h1, h2]
    · exfalso
      apply h
      simp [task_delivery, h1]
  · intro h
    rcases h with h1 | h2
    · simp [task_delivery, h1]
    · by_cases h1 : live1 = g
      · simp [task_delivery, h1, h2]
      · simp [task_delivery, h1]
  · intro gc hgc
    rw [rapid_edits_generation]
    by_cases he : gc = c + n
    · subst he
      simp [task_delivery]
    · constructor
      · intro hp
        exfalso
        have hne : ¬ (c + n = gc) := fun hcn => he hcn.symm
        simp [task_delivery, hne] at hp
      · intro hp
        exact absurd hp he
  · intro gc hgc
    rw [rapid_edits_pending] at hgc
    rcases List.mem_map.mp hgc with ⟨k, hk, rfl⟩
    have := List.mem_range.mp hk
    omega

/-- Witness for c4_generation_discipline at three rapid edits from a fresh
counter: only the third task (generation 3) can publish, a superseded task
(generation 2 against live counter 3) is dropped silently, and exactly one
pending generation matches the live counter. -/
theorem c4_generation_discipline_witness :
    0 < 3
    ∧ task_delivery 2 3 3 (SearchOutcome.ok [sample_app_item])
        = { published := none, errors := [] }
    ∧ (rapid_edits { generation := 0, pending := [] } 3).pending.filter
        (fun gc =>
          gc == (rapid_edits { generation := 0, pending := [] } 3).generation)
        = [0 + 3] :=
  ⟨by decide,
   (c4_generation_discipline 0 3 2 3 3 [sample_app_item]
      (SearchOutcome.ok [sample_app_item]) (by decide)).2.1
     (Or.inl (by decide)),
   (c4_generation_discipline 0 3 2 3 3 [sample_app_item]
      (SearchOutcome.ok [sample_app_item]) (by decide)).2.2.2.1⟩

/-- Claim C10: with a non-empty trimmed query, the view computed by
filter_items is the stable sort of the concatenation of the three buffer
filtrations (static, filesystem, web), each keeping exactly the items that
pass the match test; membership in the pre-sort merged list is exactly
matching plus membership in some buffer; and multiplicities add up with no
deduplication, so an item present in several buffers, or several times in
one buffer, appears that many times. -/
theorem c10_merge_concat (fuzzy : String → String → Int)
    (rawQuery : String) (items fs_items web_items history : List CommandItem)
    (sel : Option Nat) (x : CommandItem)
    (hq : (str_trim rawQuery).isEmpty = false) :
    ((filter_items fuzzy rawQuery items fs_items web_items history sel).1
      = sort_by (session_le fuzzy (str_trim rawQuery))
          (items.filter (matches_query fuzzy (str_trim rawQuery))
            ++ fs_items.filter (matches_query fuzzy (str_trim rawQuery))
            ++ web_items.filter (matches_query fuzzy (str_trim rawQuery))))
    ∧ (x ∈ items.filter (matches_query fuzzy (str_trim rawQuery))
          ++ fs_items.filter (matches_query fuzzy (str_trim rawQuery))
          ++ web_items.filter (matches_query fuzzy (str_trim rawQuery))
        ↔ matches_query fuzzy (str_trim rawQuery) x = true
          ∧ (x ∈ items ∨ x ∈ fs_items ∨ x ∈ web_items))
    ∧ (matches_query fuzzy (str_trim rawQuery) x = true →
        (items.filter (matches_query fuzzy (str_trim rawQuery))
          ++ fs_items.filter (matches_query fuzzy (str_trim rawQuery))
          ++ web_items.filter (matches_query fuzzy (str_trim rawQuery))).count x
          = items.count x + fs_items.count x + web_items.count x) := by
  refine ⟨?_, ?_, ?_⟩
  · simp [filter_items, hq]
  · simp only [List.mem_append, List.mem_filter]
    tauto
  · intro hm
    rw [List.count_append, List.count_append,
      List.count_filter hm, List.count_filter hm, List.count_filter hm]

/-- Witness for c10_merge_concat: the same item placed in the static and
the filesystem buffer matches the query "bet" and appears twice in the
merged list. -/
theorem c10_merge_concat_witness :
    (str_trim "bet").isEmpty = false
    ∧ matches_query zero_fuzzy (str_trim "bet") sample_app_item = true
    ∧ ([sample_app_item].filter (matches_query zero_fuzzy (str_trim "bet"))
        ++ [sample_app_item].filter (matches_query zero_fuzzy (str_trim "bet"))
        ++ ([] : List CommandItem).filter
            (matches_query zero_fuzzy (str_trim "bet"))).count sample_app_item
        = [sample_app_item].count sample_app_item
          + [sample_app_item].count sample_app_item
          + ([] : List CommandItem).count sample_app_item :=
  ⟨by decide, by decide,
   (c10_merge_concat zero_fuzzy "bet" [sample_app_item] [sample_app_item]
      [] [] none sample_app_item (by decide)).2.2 (by decide)⟩

/-- Handler serialization round trip. -/
theorem json_to_handler_round (h : Handler) :
    json_to_handler (handler_to_json h) = some h := by
  cases h <;> rfl

/-- CommandType serialization round trip. -/
theorem json_to_kind_round (k : CommandType) :
    json_to_kind (kind_to_json k) = some k := by
  cases k <;> rfl

/-- Metadata serialization round trip. -/
theorem json_to_meta_round (m : List (String × String)) :
    json_to_meta (meta_to_json m) = some m := by
  simp only [meta_to_json, json_to_meta]
  induction m with
  | nil => rfl
  | cons kv rest ih => simp [meta_fields_to_list, ih]

/-- Item serialization round trip: decoding an encoded item recovers the
item, including ran_at, base64_icon, metadata and kind, in all four
presence combinations of the two skippable optional fields. -/
theorem json_to_item_round (it : CommandItem) :
    json_to_item (item_to_json it) = some it := by
  obtain ⟨label, handler, value, icon, ran_at, b64, md, kind⟩ := it
  cases ran_at <;> cases b64 <;>
    simp [item_to_json, json_to_item, get_field,
      json_to_handler_round, json_to_kind_round, json_to_meta_round]

/-- Document-level round trip for a whole item list. -/
theorem json_to_items_round (l : List CommandItem) :
    json_to_items (save_history l) = some l := by
  simp only [save_history, json_to_items]
  induction l with
  | nil => rfl
  | cons it rest ih =>
    simp [decode_item_list, json_to_item_round, ih]

/-- Claim C7: for every history list, saving and then loading reproduces
the same sequence of items, in the same order, with ran_at, base64_icon,
metadata and kind preserved; the hypothesis states that the external
string parser returns the document that save_history wrote. -/
theorem c7_save_load_round_trip (history : List CommandItem)
    (contents : String) (json_parse : String → Option Json)
    (h : json_parse contents = some (save_history history)) :
    load_history true contents json_parse = history := by
  simp [load_history, h, json_to_items_round]

/-- Witness for c7_save_load_round_trip on a one-item history whose item
populates every optional field. -/
theorem c7_save_load_round_trip_witness :
    (fun _ => some (save_history [sample_full_item]) : String → Option Json)
        "file" = some (save_history [sample_full_item])
    ∧ load_history true "file"
        (fun _ => some (save_history [sample_full_item]))
        = [sample_full_item] :=
  ⟨rfl,
   c7_save_load_round_trip [sample_full_item] "file"
     (fun _ => some (save_history [sample_full_item])) rfl⟩
